import Mathlib

/-!
Verification development for the active-learning tutorial notebook
(`active_classifictaion.ipynb`).  The notebook's experiment loop is embedded
shallowly: numpy arrays become Lean lists, the external `ActiveLearner`
(modAL) becomes a record of opaque operations, and `np.random` becomes an
explicit stream of naturals consumed by a without-replacement sampler.
-/

/-- A molecular fingerprint: a fixed-length binary vector (the output of
`uru.smi2numpy_fp`, opaque to this development). -/
abbrev Fingerprint := List Nat

/-- The loaded `screen.csv` DataFrame `df`, restricted to the columns the
experiment reads: the binary label column `y` and the fingerprint column
`fp` (added by `df['fp'] = df.smiles.progress_apply(uru.smi2numpy_fp)`).
The `smiles` column is only consumed by the external fingerprinter, so it
is not represented. -/
structure DataFrame where
  y : List Int
  fp : List Fingerprint
deriving DecidableEq

/-- The notebook's global configuration: the loaded DataFrame `df` together
with the global sample sizes `n_initial = 100` and `n_instances = 100`. -/
structure Env where
  df : DataFrame
  n_initial : Nat
  n_instances : Nat
deriving DecidableEq

/-- `len(df)`: the pool size M. -/
def Env.M (e : Env) : Nat := e.df.y.length

/-- `X_pool = np.stack(df.fp.values)`. -/
def X_pool (e : Env) : List Fingerprint := e.df.fp

/-- `y_pool = df.y.values`. -/
def y_pool (e : Env) : List Int := e.df.y

/-- Numpy fancy indexing `xs[idx_list]` on the feature matrix. -/
def npIndexF (xs : List Fingerprint) (idxs : List Nat) : List Fingerprint :=
  idxs.map (fun i => xs.getD i [])

/-- Numpy fancy indexing `xs[idx_list]` on a label vector. -/
def npIndexI (xs : List Int) (idxs : List Nat) : List Int :=
  idxs.map (fun i => xs.getD i 0)

/-- `sum(y[idxs])`: the sum of the labels at the given indices. -/
def sumAt (y : List Int) (idxs : List Nat) : Int := (npIndexI y idxs).sum

/-- Model of sampling `k` elements without replacement from `pool`, driven by
the stream `r` of random draws: each step picks the element at position
`r.head % pool.length` and removes it from the pool.  Returns `none`
when the pool is exhausted before `k` elements were drawn, modelling
numpy's "Cannot take a larger sample than population" `ValueError`. -/
def sampleNoReplace : List Nat → List Nat → Nat → Option (List Nat)
  | _, _, 0 => some []
  | r, pool, k + 1 =>
    if pool.length = 0 then none
    else
      (sampleNoReplace r.tail (pool.erase (pool.getD (r.headD 0 % pool.length) 0)) k).map
        (fun rest => pool.getD (r.headD 0 % pool.length) 0 :: rest)

/-- `np.random.choice(range(M), size=k, replace=False)` driven by the random
stream `r`. -/
def np_random_choice (r : List Nat) (M k : Nat) : Option (List Nat) :=
  sampleNoReplace r (List.range M) k

/-- `class Oracle`: holds the DataFrame passed to its constructor in `self.df`. -/
structure Oracle where
  df : DataFrame
deriving DecidableEq

/-- `Oracle.get_values(self, idx_list): return df.y.values[idx_list]` — note
the body reads the global `df`, not `self.df`. -/
def Oracle.get_values (e : Env) (o : Oracle) (idx_list : List Nat) : List Int :=
  idx_list.map (fun i => e.df.y.getD i 0)

/-- The external modAL `ActiveLearner` capability over an opaque model state
`σ`: the constructor-with-fit (`ActiveLearner(estimator=..., X_training=...,
y_training=...)`), `learner.query(X_pool, n_instances=...)` returning the
selected pool indices, and the incremental `learner.teach(X, y)`. -/
structure LearnerOps (σ : Type) where
  init : List Fingerprint → List Int → σ
  query : σ → List Fingerprint → Nat → List Nat
  teach : σ → List Fingerprint → List Int → σ

/-- One run of the query/teach loop of `run_active_learning`, carrying the
learner state and the accumulators `pick_list` and the list of queried
batches.  Each iteration mirrors the loop body:
`query_idx, query_inst = learner.query(X_pool, n_instances=n_instances)`;
`y_new = oracle.get_values(query_idx)` (bound but never used);
`learner.teach(X_pool[query_idx], y_pool[query_idx])`;
`pick_list = np.append(pick_list, query_idx)`. -/
def alCycles {σ : Type} (e : Env) (ops : LearnerOps σ) (oracle : Oracle) :
    Nat → σ → List Nat → List (List Nat) → σ × List Nat × List (List Nat)
  | 0, learner, pick_list, batches => (learner, pick_list, batches)
  | n + 1, learner, pick_list, batches =>
    let query_idx := ops.query learner (X_pool e) e.n_instances
    let y_new := Oracle.get_values e oracle query_idx
    let learner2 := ops.teach learner (npIndexF (X_pool e) query_idx) (npIndexI (y_pool e) query_idx)
    alCycles e ops oracle n learner2 (pick_list ++ query_idx) (batches ++ [query_idx])

/-- The observable outcome of one trial: the freshly drawn initial indices,
the queried batches in order, the final `pick_list`, the final learner
state, and the returned hit count `sum(y[pick_list])`. -/
structure TrialResult (σ : Type) where
  initial_list : List Nat
  batches : List (List Nat)
  pick_list : List Nat
  learner : σ
  hit_count : Int
deriving DecidableEq

/-- `def run_active_learning(X, y, oracle, num_cycles=10)`, with the notebook
globals it reads passed explicitly: `e` supplies `df`, `n_initial`,
`n_instances`, `X_pool`, `y_pool`; `X_training`/`y_training` are the global
arrays of the earlier cell (the function reuses them as-is); `r` is the
random stream behind `np.random.choice`.  The Python `X` parameter is
never read by the body; `y` is read only in the final `sum(y[pick_list])`.
Returns `none` when the initial draw raises numpy's insufficient-population
error, and otherwise the full trial outcome. -/
def run_active_learning_full {σ : Type} (e : Env) (ops : LearnerOps σ) (r : List Nat)
    (X : List Fingerprint) (y : List Int) (oracle : Oracle)
    (X_training : List Fingerprint) (y_training : List Int)
    (num_cycles : Nat) : Option (TrialResult σ) :=
  match np_random_choice r e.M e.n_initial with
  | none => none
  | some initial_list =>
    let learner := ops.init X_training y_training
    let out := alCycles e ops oracle num_cycles learner initial_list []
    some ⟨initial_list, out.2.2, out.2.1, out.1, sumAt y out.2.1⟩

/-- The scalar the Python function returns: `sum(y[pick_list])`. -/
def run_active_learning {σ : Type} (e : Env) (ops : LearnerOps σ) (r : List Nat)
    (X : List Fingerprint) (y : List Int) (oracle : Oracle)
    (X_training : List Fingerprint) (y_training : List Int)
    (num_cycles : Nat) : Option Int :=
  (run_active_learning_full e ops r X y oracle X_training y_training num_cycles).map
    TrialResult.hit_count

/-- One baseline random trial, the body of the loop that fills
`random_hit_count_list`, with the sample size as a parameter (the notebook
instantiates it at 1000):
`random_list = np.random.choice(range(len(df)), size=k, replace=False)`
followed by `sum(df.y.values[random_list])`. -/
def random_hit_count (e : Env) (r : List Nat) (k : Nat) : Option Int :=
  (np_random_choice r e.M k).map (fun random_list => sumAt e.df.y random_list)

/-- `random_hit_count_list`: ten baseline trials of size 1000, one per random
stream. -/
def random_hit_count_list (e : Env) (rs : List (List Nat)) : List (Option Int) :=
  rs.map (fun r => random_hit_count e r 1000)

/-- Wrap an arbitrary learner so that its state additionally records every
`(features, labels)` batch the model was fit or taught with, in order. -/
def loggedOps {σ : Type} (ops : LearnerOps σ) :
    LearnerOps (σ × List (List Fingerprint × List Int)) :=
  ⟨fun X y => (ops.init X y, [(X, y)]),
   fun s pool n => ops.query s.1 pool n,
   fun s X y => (ops.teach s.1 X y, s.2 ++ [(X, y)])⟩

/-- A two-row pool: labels `[0, 1]`. -/
def dfA : DataFrame := ⟨[0, 1], [[0], [1]]⟩

/-- Sample configuration over `dfA` with `n_initial = 1`, `n_instances = 1`. -/
def envA : Env := ⟨dfA, 1, 1⟩

def oracleA : Oracle := ⟨dfA⟩

/-- A three-row pool: labels `[1, 0, 1]`. -/
def dfB : DataFrame := ⟨[1, 0, 1], [[1], [0], [1]]⟩

/-- Sample configuration over `dfB` with `n_initial = 1`, `n_instances = 2`. -/
def envB : Env := ⟨dfB, 1, 2⟩

def oracleB : Oracle := ⟨dfB⟩

/-- Misconfiguration: `n_initial = 3` exceeds the pool size 2. -/
def envC : Env := ⟨dfA, 3, 1⟩

/-- An all-active three-row pool: labels `[1, 1, 1]`, `n_initial = 1`,
`n_instances = 1`. -/
def dfD : DataFrame := ⟨[1, 1, 1], [[0], [0], [0]]⟩

def envD : Env := ⟨dfD, 1, 1⟩

def oracleD : Oracle := ⟨dfD⟩

/-- A trivial concrete learner: ignores all data; its query strategy always
selects the first `n_instances` pool indices. -/
def constOps : LearnerOps Unit :=
  ⟨fun _ _ => (), fun _ _ n => List.range n, fun _ _ _ => ()⟩

/-- A learner whose state is exactly the data it was constructed-and-fit on;
its query strategy selects the first `n_instances` pool indices. -/
def recOps : LearnerOps (List Fingerprint × List Int) :=
  ⟨fun X y => (X, y), fun _ _ n => List.range n, fun s _ _ => s⟩

/-- The outcome of the `envB`/`constOps` trial with stream `[0]` and one cycle. -/
def resB : TrialResult Unit := ⟨[0], [[0, 1]], [0, 0, 1], (), 2⟩

/-- The outcome of the `envB`/`loggedOps constOps` trial with stream `[0]`,
training globals `[[1]]`/`[1]` and one cycle. -/
def resBlog : TrialResult (Unit × List (List Fingerprint × List Int)) :=
  ⟨[0], [[0, 1]], [0, 0, 1], ((), [([[1]], [1]), ([[1], [0]], [1, 0])]), 2⟩

/-- The outcome of the `envD`/`constOps` trial with stream `[0]` and two cycles. -/
def resD : TrialResult Unit := ⟨[0], [[0], [0]], [0, 0, 0], (), 3⟩

theorem sampleNoReplace_succ (r pool : List Nat) (k : Nat) :
    sampleNoReplace r pool (k + 1) =
      if pool.length = 0 then none
      else
        (sampleNoReplace r.tail (pool.erase (pool.getD (r.headD 0 % pool.length) 0)) k).map
          (fun rest => pool.getD (r.headD 0 % pool.length) 0 :: rest) := rfl

theorem sampleNoReplace_spec :
    ∀ (k : Nat) (r pool : List Nat), pool.Nodup → k ≤ pool.length →
      ∃ l, sampleNoReplace r pool k = some l ∧ l.length = k ∧ l.Nodup ∧ ∀ x ∈ l, x ∈ pool := by
  intro k
  induction k with
  | zero =>
    intro r pool _ _
    exact ⟨[], rfl, rfl, List.nodup_nil, by intro x hx; cases hx⟩
  | succ k ih =>
    intro r pool hnd hk
    have hpos : 0 < pool.length := by omega
    have hne : ¬ pool.length = 0 := by omega
    have hjlt : r.headD 0 % pool.length < pool.length := Nat.mod_lt _ hpos
    have hxg : pool.getD (r.headD 0 % pool.length) 0 = pool[r.headD 0 % pool.length] :=
      List.getD_eq_getElem pool 0 hjlt
    have hxmem : pool.getD (r.headD 0 % pool.length) 0 ∈ pool := by
      rw [hxg]; exact List.getElem_mem hjlt
    have hlenE : (pool.erase (pool.getD (r.headD 0 % pool.length) 0)).length = pool.length - 1 :=
      List.length_erase_of_mem hxmem
    have hndE : (pool.erase (pool.getD (r.headD 0 % pool.length) 0)).Nodup := hnd.erase _
    have hk' : k ≤ (pool.erase (pool.getD (r.headD 0 % pool.length) 0)).length := by omega
    obtain ⟨rest, hrest, hlen, hndr, hmemr⟩ :=
      ih r.tail (pool.erase (pool.getD (r.headD 0 % pool.length) 0)) hndE hk'
    refine ⟨pool.getD (r.headD 0 % pool.length) 0 :: rest, ?_, by simp [hlen], ?_, ?_⟩
    · rw [sampleNoReplace_succ, if_neg hne, hrest]
      rfl
    · rw [List.nodup_cons]
      refine ⟨?_, hndr⟩
      intro hmm
      have := (List.Nodup.mem_erase_iff hnd).mp (hmemr _ hmm)
      exact this.1 rfl
    · intro x hx
      cases hx with
      | head => exact hxmem
      | tail _ hx => exact (List.erase_sublist _ _).subset (hmemr _ hx)

theorem sampleNoReplace_none :
    ∀ (k : Nat) (r pool : List Nat), pool.length < k → sampleNoReplace r pool k = none := by
  intro k
  induction k with
  | zero => intro r pool h; omega
  | succ k ih =>
    intro r pool h
    rw [sampleNoReplace_succ]
    by_cases he : pool.length = 0
    · rw [if_pos he]
    · rw [if_neg he]
      have hpos : 0 < pool.length := by omega
      have hjlt : r.headD 0 % pool.length < pool.length := Nat.mod_lt _ hpos
      have hxmem : pool.getD (r.headD 0 % pool.length) 0 ∈ pool := by
        rw [List.getD_eq_getElem pool 0 hjlt]
        exact List.getElem_mem hjlt
      rw [ih r.tail _ (by rw [List.length_erase_of_mem hxmem]; omega)]
      rfl

theorem np_random_choice_spec (r : List Nat) (M k : Nat) (h : k ≤ M) :
    ∃ l, np_random_choice r M k = some l ∧ l.length = k ∧ l.Nodup ∧ ∀ i ∈ l, i < M := by
  obtain ⟨l, h1, h2, h3, h4⟩ :=
    sampleNoReplace_spec k r (List.range M) (List.nodup_range M) (by simpa using h)
  exact ⟨l, h1, h2, h3, fun i hi => List.mem_range.mp (h4 i hi)⟩

theorem np_random_choice_none (r : List Nat) (M k : Nat) (h : M < k) :
    np_random_choice r M k = none :=
  sampleNoReplace_none k r (List.range M) (by simpa using h)

theorem np_random_choice_some (r : List Nat) (M k : Nat) (l : List Nat)
    (h : np_random_choice r M k = some l) :
    l.length = k ∧ l.Nodup ∧ ∀ i ∈ l, i < M := by
  by_cases hk : k ≤ M
  · obtain ⟨l', h1, h2, h3, h4⟩ := np_random_choice_spec r M k hk
    rw [h] at h1
    cases h1
    exact ⟨h2, h3, h4⟩
  · rw [np_random_choice_none r M k (by omega)] at h
    cases h

theorem alCycles_succ {σ : Type} (e : Env) (ops : LearnerOps σ) (oracle : Oracle)
    (n : Nat) (L : σ) (pl : List Nat) (bs : List (List Nat)) :
    alCycles e ops oracle (n + 1) L pl bs =
      alCycles e ops oracle n
        (ops.teach L (npIndexF (X_pool e) (ops.query L (X_pool e) e.n_instances))
                     (npIndexI (y_pool e) (ops.query L (X_pool e) e.n_instances)))
        (pl ++ ops.query L (X_pool e) e.n_instances)
        (bs ++ [ops.query L (X_pool e) e.n_instances]) := rfl

theorem alCycles_acc {σ : Type} (e : Env) (ops : LearnerOps σ) (oracle : Oracle) (n : Nat) :
    ∀ (L : σ) (pl : List Nat) (bs : List (List Nat)),
      alCycles e ops oracle n L pl bs =
        ((alCycles e ops oracle n L [] []).1,
         pl ++ (alCycles e ops oracle n L [] []).2.1,
         bs ++ (alCycles e ops oracle n L [] []).2.2) := by
  induction n with
  | zero => intro L pl bs; simp [alCycles]
  | succ n ih =>
    intro L pl bs
    rw [alCycles_succ, alCycles_succ]
    rw [ih (ops.teach L (npIndexF (X_pool e) (ops.query L (X_pool e) e.n_instances))
             (npIndexI (y_pool e) (ops.query L (X_pool e) e.n_instances)))
          (pl ++ ops.query L (X_pool e) e.n_instances)
          (bs ++ [ops.query L (X_pool e) e.n_instances]),
        ih (ops.teach L (npIndexF (X_pool e) (ops.query L (X_pool e) e.n_instances))
             (npIndexI (y_pool e) (ops.query L (X_pool e) e.n_instances)))
          ([] ++ ops.query L (X_pool e) e.n_instances)
          ([] ++ [ops.query L (X_pool e) e.n_instances])]
    simp [List.append_assoc]

/-- One unfolded step of the loop starting from empty accumulators. -/
theorem alCycles_cons {σ : Type} (e : Env) (ops : LearnerOps σ) (oracle : Oracle)
    (n : Nat) (L : σ) :
    alCycles e ops oracle (n + 1) L [] [] =
      ((alCycles e ops oracle n
          (ops.teach L (npIndexF (X_pool e) (ops.query L (X_pool e) e.n_instances))
                       (npIndexI (y_pool e) (ops.query L (X_pool e) e.n_instances))) [] []).1,
       ops.query L (X_pool e) e.n_instances ++
         (alCycles e ops oracle n
          (ops.teach L (npIndexF (X_pool e) (ops.query L (X_pool e) e.n_instances))
                       (npIndexI (y_pool e) (ops.query L (X_pool e) e.n_instances))) [] []).2.1,
       ops.query L (X_pool e) e.n_instances ::
         (alCycles e ops oracle n
          (ops.teach L (npIndexF (X_pool e) (ops.query L (X_pool e) e.n_instances))
                       (npIndexI (y_pool e) (ops.query L (X_pool e) e.n_instances))) [] []).2.2) := by
  rw [alCycles_succ]
  rw [alCycles_acc e ops oracle n _ ([] ++ ops.query L (X_pool e) e.n_instances)
        ([] ++ [ops.query L (X_pool e) e.n_instances])]
  simp

theorem alCycles_pick_flatten {σ : Type} (e : Env) (ops : LearnerOps σ) (oracle : Oracle)
    (n : Nat) : ∀ (L : σ),
    (alCycles e ops oracle n L [] []).2.1 = (alCycles e ops oracle n L [] []).2.2.flatten := by
  induction n with
  | zero => intro L; rfl
  | succ n ih =>
    intro L
    rw [alCycles_cons]
    simp only [List.flatten_cons]
    rw [ih]

theorem alCycles_batches_length {σ : Type} (e : Env) (ops : LearnerOps σ) (oracle : Oracle)
    (n : Nat) : ∀ (L : σ), (alCycles e ops oracle n L [] []).2.2.length = n := by
  induction n with
  | zero => intro L; rfl
  | succ n ih =>
    intro L
    rw [alCycles_cons]
    simp [ih]

theorem alCycles_batches_from_query {σ : Type} (e : Env) (ops : LearnerOps σ) (oracle : Oracle)
    (n : Nat) : ∀ (L : σ) (b : List Nat), b ∈ (alCycles e ops oracle n L [] []).2.2 →
      ∃ s : σ, b = ops.query s (X_pool e) e.n_instances := by
  induction n with
  | zero => intro L b hb; cases hb
  | succ n ih =>
    intro L b hb
    rw [alCycles_cons] at hb
    cases hb with
    | head => exact ⟨L, rfl⟩
    | tail _ hb => exact ih _ b hb

theorem alCycles_log {σ : Type} (e : Env) (ops : LearnerOps σ) (oracle : Oracle)
    (n : Nat) : ∀ (L : σ) (log0 : List (List Fingerprint × List Int)),
      (alCycles e (loggedOps ops) oracle n (L, log0) [] []).1.2 =
        log0 ++ ((alCycles e (loggedOps ops) oracle n (L, log0) [] []).2.2).map
          (fun b => (npIndexF (X_pool e) b, npIndexI (y_pool e) b)) := by
  induction n with
  | zero => intro L log0; simp [alCycles]
  | succ n ih =>
    intro L log0
    have hq : (loggedOps ops).query (L, log0) (X_pool e) e.n_instances =
        ops.query L (X_pool e) e.n_instances := rfl
    have ht : (loggedOps ops).teach (L, log0)
        (npIndexF (X_pool e) (ops.query L (X_pool e) e.n_instances))
        (npIndexI (y_pool e) (ops.query L (X_pool e) e.n_instances)) =
        (ops.teach L (npIndexF (X_pool e) (ops.query L (X_pool e) e.n_instances))
                     (npIndexI (y_pool e) (ops.query L (X_pool e) e.n_instances)),
         log0 ++ [(npIndexF (X_pool e) (ops.query L (X_pool e) e.n_instances),
                   npIndexI (y_pool e) (ops.query L (X_pool e) e.n_instances))]) := rfl
    rw [alCycles_cons]
    dsimp only
    rw [hq, ht, ih]
    simp [List.append_assoc]

theorem sumAt_append (y : List Int) (a b : List Nat) :
    sumAt y (a ++ b) = sumAt y a + sumAt y b := by
  simp [sumAt, npIndexI]

theorem getD_nonneg (y : List Int) (hy : ∀ v ∈ y, 0 ≤ v) (i : Nat) : 0 ≤ y.getD i 0 := by
  by_cases h : i < y.length
  · rw [List.getD_eq_getElem y 0 h]
    exact hy _ (List.getElem_mem h)
  · rw [List.getD_eq_default y 0 (by omega)]

theorem getD_le_one (y : List Int) (hy : ∀ v ∈ y, v ≤ 1) (i : Nat) : y.getD i 0 ≤ 1 := by
  by_cases h : i < y.length
  · rw [List.getD_eq_getElem y 0 h]
    exact hy _ (List.getElem_mem h)
  · rw [List.getD_eq_default y 0 (by omega)]
    omega

theorem sumAt_nonneg (y : List Int) (hy : ∀ v ∈ y, 0 ≤ v) (l : List Nat) :
    0 ≤ sumAt y l := by
  induction l with
  | nil => simp [sumAt, npIndexI]
  | cons i l ih =>
    have h1 := getD_nonneg y hy i
    simp only [sumAt, npIndexI, List.map_cons, List.sum_cons] at ih ⊢
    omega

theorem sumAt_le_length (y : List Int) (hy : ∀ v ∈ y, v ≤ 1) (l : List Nat) :
    sumAt y l ≤ (l.length : Int) := by
  induction l with
  | nil => simp [sumAt, npIndexI]
  | cons i l ih =>
    have h1 := getD_le_one y hy i
    simp only [sumAt, npIndexI, List.map_cons, List.sum_cons, List.length_cons] at ih ⊢
    push_cast
    omega

theorem sumAt_all_zero (y : List Int) (hy : ∀ v ∈ y, v = 0) (l : List Nat) :
    sumAt y l = 0 := by
  have h0 : ∀ i, y.getD i 0 = 0 := by
    intro i
    by_cases h : i < y.length
    · rw [List.getD_eq_getElem y 0 h]
      exact hy _ (List.getElem_mem h)
    · rw [List.getD_eq_default y 0 (by omega)]
  induction l with
  | nil => simp [sumAt, npIndexI]
  | cons i l ih =>
    simp only [sumAt, npIndexI, List.map_cons, List.sum_cons] at ih ⊢
    rw [h0 i, ih]
    omega

theorem sumAt_all_one (y : List Int) (hy : ∀ v ∈ y, v = 1) (l : List Nat)
    (hl : ∀ i ∈ l, i < y.length) : sumAt y l = (l.length : Int) := by
  induction l with
  | nil => simp [sumAt, npIndexI]
  | cons i l ih =>
    have h1 : y.getD i 0 = 1 := by
      rw [List.getD_eq_getElem y 0 (hl i (by simp))]
      exact hy _ (List.getElem_mem _)
    have ih' := ih (fun j hj => hl j (by simp [hj]))
    simp only [sumAt, npIndexI, List.map_cons, List.sum_cons, List.length_cons] at ih' ⊢
    rw [h1, ih']
    push_cast
    omega

/-- Decomposition of a successful trial: the initial draw that succeeded, the
shape of `pick_list`, and the returned count. -/
theorem run_full_anatomy {σ : Type} (e : Env) (ops : LearnerOps σ) (r : List Nat)
    (X : List Fingerprint) (y : List Int) (oracle : Oracle)
    (Xt : List Fingerprint) (yt : List Int) (n : Nat) (res : TrialResult σ)
    (h : run_active_learning_full e ops r X y oracle Xt yt n = some res) :
    np_random_choice r e.M e.n_initial = some res.initial_list
    ∧ res.initial_list.length = e.n_initial
    ∧ res.batches = (alCycles e ops oracle n (ops.init Xt yt) [] []).2.2
    ∧ res.pick_list = res.initial_list ++ res.batches.flatten
    ∧ res.hit_count = sumAt y res.pick_list
    ∧ res.batches.length = n := by
  cases hc : np_random_choice r e.M e.n_initial with
  | none =>
    simp only [run_active_learning_full, hc] at h
    exact Option.noConfusion h
  | some il =>
    simp only [run_active_learning_full, hc, Option.some.injEq] at h
    subst h
    refine ⟨rfl, (np_random_choice_some r e.M e.n_initial il hc).1, ?_, ?_, rfl, ?_⟩
    · dsimp only
      rw [alCycles_acc e ops oracle n (ops.init Xt yt) il []]
      simp
    · dsimp only
      rw [alCycles_acc e ops oracle n (ops.init Xt yt) il []]
      simp [alCycles_pick_flatten]
    · dsimp only
      rw [alCycles_acc e ops oracle n (ops.init Xt yt) il []]
      simp [alCycles_batches_length]

/-- Flattening one more batch only appends further indices. -/
theorem flatten_take_succ :
    ∀ (i : Nat) (bs : List (List Nat)),
      ∃ extra, (bs.take (i + 1)).flatten = (bs.take i).flatten ++ extra := by
  intro i
  induction i with
  | zero =>
    intro bs
    cases bs with
    | nil => exact ⟨[], rfl⟩
    | cons b bs => exact ⟨b, by simp⟩
  | succ i ih =>
    intro bs
    cases bs with
    | nil => exact ⟨[], rfl⟩
    | cons b bs =>
      obtain ⟨extra, he⟩ := ih bs
      exact ⟨extra, by simp [he, List.append_assoc]⟩

theorem flatten_length_const (c : Nat) :
    ∀ bs : List (List Nat), (∀ b ∈ bs, b.length = c) → bs.flatten.length = bs.length * c := by
  intro bs
  induction bs with
  | nil => intro _; simp
  | cons b bs ih =>
    intro hb
    have h1 : b.length = c := hb b (by simp)
    have h2 := ih (fun b2 hb2 => hb b2 (by simp [hb2]))
    simp only [List.flatten_cons, List.length_append, List.length_cons, h1, h2]
    ring

theorem getD_zero_or_one (y : List Int) (hy : ∀ v ∈ y, v = 0 ∨ v = 1) (i : Nat) :
    y.getD i 0 = 0 ∨ y.getD i 0 = 1 := by
  by_cases h : i < y.length
  · rw [List.getD_eq_getElem y 0 h]
    exact hy _ (List.getElem_mem h)
  · rw [List.getD_eq_default y 0 (by omega)]
    exact Or.inl rfl

theorem sum_eq_count_one :
    ∀ l : List Int, (∀ v ∈ l, v = 0 ∨ v = 1) → l.sum = ((l.count 1 : Nat) : Int) := by
  intro l
  induction l with
  | nil => intro _; rfl
  | cons v l ih =>
    intro hl
    have hv := hl v (by simp)
    have ih' := ih (fun w hw => hl w (by simp [hw]))
    rcases hv with hv | hv <;> subst hv <;>
      simp [List.sum_cons, List.count_cons, ih'] <;> push_cast <;> omega

/-- Claim C1 (evaluation at the failing input): inside `run_active_learning`
the `ActiveLearner` is constructed and fit on the stale global
`X_training`/`y_training` — derived from the earlier global `initial_list`
draw — not on the features and labels at the trial's freshly drawn
`initial_list`.  Over the pool `[0, 1]`, a global draw with stream `[0]`
yields training data `([[0]], [0])`; a trial with stream `[1]` freshly
draws `initial_list = [1]`, yet the learner (here `recOps`, whose state
records exactly the data it was fit on) holds `([[0]], [0])`, which
differs from the fresh subset `([[1]], [1])`. -/
theorem c1_stale_initial_training :
    np_random_choice [0] envA.M envA.n_initial = some [0]
    ∧ npIndexF (X_pool envA) [0] = [[0]]
    ∧ npIndexI (y_pool envA) [0] = [0]
    ∧ run_active_learning_full envA recOps [1] (X_pool envA) (y_pool envA) oracleA
        [[0]] [0] 0 = some ⟨[1], [], [1], ([[0]], [0]), 1⟩
    ∧ (⟨[1], [], [1], ([[0]], [0]), 1⟩ :
        TrialResult (List Fingerprint × List Int)).learner ≠
        (npIndexF (X_pool envA) [1], npIndexI (y_pool envA) [1]) := by
  refine ⟨rfl, rfl, rfl, rfl, ?_⟩
  decide

/-- Claim C2: a completed call of `run_active_learning` returns the sum of
`y` over the final selection set, which is the freshly drawn `n_initial`
initial indices followed by the `num_cycles` queried batches appended in
order with no deduplication; with binary pool labels the result is
non-negative. -/
theorem c2_hit_count_is_selection_sum {σ : Type} (e : Env) (ops : LearnerOps σ)
    (r : List Nat) (X : List Fingerprint) (y : List Int) (oracle : Oracle)
    (Xt : List Fingerprint) (yt : List Int) (n : Nat) (res : TrialResult σ)
    (h : run_active_learning_full e ops r X y oracle Xt yt n = some res) :
    res.initial_list.length = e.n_initial
    ∧ res.batches.length = n
    ∧ res.pick_list = res.initial_list ++ res.batches.flatten
    ∧ res.hit_count = sumAt y (res.initial_list ++ res.batches.flatten)
    ∧ run_active_learning e ops r X y oracle Xt yt n = some res.hit_count
    ∧ ((∀ v ∈ y, v = 0 ∨ v = 1) → 0 ≤ res.hit_count) := by
  obtain ⟨h1, h2, h3, h4, h5, h6⟩ := run_full_anatomy e ops r X y oracle Xt yt n res h
  refine ⟨h2, h6, h4, by rw [h5, h4], ?_, ?_⟩
  · simp [run_active_learning, h]
  · intro hb
    rw [h5]
    exact sumAt_nonneg y (fun v hv => by rcases hb v hv with hv0 | hv0 <;> omega) _

theorem run_full_learner {σ : Type} (e : Env) (ops : LearnerOps σ) (r : List Nat)
    (X : List Fingerprint) (y : List Int) (oracle : Oracle)
    (Xt : List Fingerprint) (yt : List Int) (n : Nat) (res : TrialResult σ)
    (h : run_active_learning_full e ops r X y oracle Xt yt n = some res) :
    res.learner = (alCycles e ops oracle n (ops.init Xt yt) [] []).1 := by
  cases hc : np_random_choice r e.M e.n_initial with
  | none =>
    simp only [run_active_learning_full, hc] at h
    exact Option.noConfusion h
  | some il =>
    simp only [run_active_learning_full, hc, Option.some.injEq] at h
    subst h
    dsimp only
    rw [alCycles_acc e ops oracle n (ops.init Xt yt) il []]

/-- Claim C3: in every cycle the model update receives exactly the queried
features together with the labels the Oracle returns for the queried
indices — running the trial with any learner wrapped by `loggedOps`, the
recorded fit/teach data is the initial training pair followed by, per
queried batch `b`, the pair `(X_pool[b], oracle.get_values(b))`. -/
theorem c3_teach_uses_oracle_labels {σ : Type} (e : Env) (ops : LearnerOps σ)
    (r : List Nat) (X : List Fingerprint) (y : List Int) (oracle : Oracle)
    (Xt : List Fingerprint) (yt : List Int) (n : Nat)
    (res : TrialResult (σ × List (List Fingerprint × List Int)))
    (h : run_active_learning_full e (loggedOps ops) r X y oracle Xt yt n = some res) :
    res.learner.2 = (Xt, yt) ::
      res.batches.map (fun b => (npIndexF (X_pool e) b, Oracle.get_values e oracle b)) := by
  have hl := run_full_learner e (loggedOps ops) r X y oracle Xt yt n res h
  have hb := (run_full_anatomy e (loggedOps ops) r X y oracle Xt yt n res h).2.2.1
  have hinit : (loggedOps ops).init Xt yt = (ops.init Xt yt, [(Xt, yt)]) := rfl
  rw [hl, hb, hinit]
  rw [alCycles_log e ops oracle n (ops.init Xt yt) [(Xt, yt)]]
  simp [Oracle.get_values, npIndexI, y_pool]

/-- Claim C4: for a completed trial over a binary-labelled pool, the hit
count lies between 0 and `n_initial + num_cycles * n_instances`, provided
the query strategy honours its contract (each batch has exactly
`n_instances` indices, all inside `[0, M)`); the bounds are attained at the
all-zero and all-one pools respectively. -/
theorem c4_hit_count_bounds {σ : Type} (e : Env) (ops : LearnerOps σ)
    (r : List Nat) (oracle : Oracle) (Xt : List Fingerprint) (yt : List Int)
    (n : Nat) (res : TrialResult σ)
    (h : run_active_learning_full e ops r (X_pool e) (y_pool e) oracle Xt yt n = some res)
    (hqlen : ∀ s : σ, (ops.query s (X_pool e) e.n_instances).length = e.n_instances)
    (hqmem : ∀ s : σ, ∀ i ∈ ops.query s (X_pool e) e.n_instances, i < e.M) :
    res.pick_list.length = e.n_initial + n * e.n_instances
    ∧ ((∀ v ∈ y_pool e, v = 0 ∨ v = 1) →
        0 ≤ res.hit_count ∧
          res.hit_count ≤ (e.n_initial : Int) + (n : Int) * (e.n_instances : Int))
    ∧ ((∀ v ∈ y_pool e, v = 0) → res.hit_count = 0)
    ∧ ((∀ v ∈ y_pool e, v = 1) →
        res.hit_count = (e.n_initial : Int) + (n : Int) * (e.n_instances : Int)) := by
  obtain ⟨h1, h2, h3, h4, h5, h6⟩ :=
    run_full_anatomy e ops r (X_pool e) (y_pool e) oracle Xt yt n res h
  have hblen : ∀ b ∈ res.batches, b.length = e.n_instances := by
    intro b hb
    rw [h3] at hb
    obtain ⟨s, hs⟩ := alCycles_batches_from_query e ops oracle n (ops.init Xt yt) b hb
    rw [hs]
    exact hqlen s
  have hbmem : ∀ b ∈ res.batches, ∀ i ∈ b, i < e.M := by
    intro b hb
    rw [h3] at hb
    obtain ⟨s, hs⟩ := alCycles_batches_from_query e ops oracle n (ops.init Xt yt) b hb
    rw [hs]
    exact hqmem s
  have hplen : res.pick_list.length = e.n_initial + n * e.n_instances := by
    rw [h4, List.length_append, h2, flatten_length_const e.n_instances res.batches hblen, h6]
  have hpmem : ∀ i ∈ res.pick_list, i < e.M := by
    intro i hi
    rw [h4] at hi
    rcases List.mem_append.mp hi with hi | hi
    · exact (np_random_choice_some r e.M e.n_initial res.initial_list h1).2.2 i hi
    · obtain ⟨b, hb, hib⟩ := List.mem_flatten.mp hi
      exact hbmem b hb i hib
  have hylen : (y_pool e).length = e.M := rfl
  refine ⟨hplen, ?_, ?_, ?_⟩
  · intro hb01
    constructor
    · rw [h5]
      exact sumAt_nonneg (y_pool e)
        (fun v hv => by rcases hb01 v hv with h0 | h0 <;> omega) _
    · rw [h5]
      have hle := sumAt_le_length (y_pool e)
        (fun v hv => by rcases hb01 v hv with h0 | h0 <;> omega) res.pick_list
      rw [hplen] at hle
      exact_mod_cast hle
  · intro hz
    rw [h5]
    exact sumAt_all_zero (y_pool e) hz res.pick_list
  · intro h1s
    rw [h5]
    have hall := sumAt_all_one (y_pool e) h1s res.pick_list
      (fun i hi => by rw [hylen]; exact hpmem i hi)
    rw [hplen] at hall
    exact_mod_cast hall

/-- Claim C5: a requested sample larger than the pool fails with the
insufficient-population condition at trial start: when
`n_initial > M` the whole trial returns the failure for every learner,
oracle and cycle count (no query/teach cycle runs), and a baseline draw of
`k > M` indices likewise fails. -/
theorem c5_insufficient_population_rejected (e : Env) (hM : e.M < e.n_initial) :
    (∀ (σ : Type) (ops : LearnerOps σ) (r : List Nat) (X : List Fingerprint)
        (y : List Int) (oracle : Oracle) (Xt : List Fingerprint) (yt : List Int)
        (num_cycles : Nat),
        run_active_learning_full e ops r X y oracle Xt yt num_cycles = none
        ∧ run_active_learning e ops r X y oracle Xt yt num_cycles = none)
    ∧ (∀ (r : List Nat) (k : Nat), e.M < k → random_hit_count e r k = none) := by
  constructor
  · intro σ ops r X y oracle Xt yt nc
    have hnone := np_random_choice_none r e.M e.n_initial hM
    constructor
    · simp [run_active_learning_full, hnone]
    · simp [run_active_learning, run_active_learning_full, hnone]
  · intro r k hk
    simp [random_hit_count, np_random_choice_none r e.M k hk]

/-- Claim C6: a baseline trial with sample size `k ≤ M` draws `k` indices
without replacement and returns the count of positive labels among exactly
those indices (with binary labels the returned sum is the number of
sampled indices labelled 1); with `k = 0` it selects the empty index set
and returns hit count 0. -/
theorem c6_baseline_counts_positives (e : Env) (r : List Nat) (k : Nat) (hk : k ≤ e.M) :
    (∃ idxs, np_random_choice r e.M k = some idxs
      ∧ idxs.length = k
      ∧ random_hit_count e r k = some (sumAt e.df.y idxs)
      ∧ ((∀ v ∈ e.df.y, v = 0 ∨ v = 1) →
          random_hit_count e r k = some (((npIndexI e.df.y idxs).count 1 : Nat) : Int)))
    ∧ np_random_choice r e.M 0 = some []
    ∧ random_hit_count e r 0 = some 0 := by
  obtain ⟨idxs, hc, hlen, hnd, hmem⟩ := np_random_choice_spec r e.M k hk
  refine ⟨⟨idxs, hc, hlen, ?_, ?_⟩, rfl, rfl⟩
  · simp [random_hit_count, hc]
  · intro hb01
    have hbatch : ∀ v ∈ npIndexI e.df.y idxs, v = 0 ∨ v = 1 := by
      intro v hv
      obtain ⟨i, hi, hvi⟩ := List.mem_map.mp hv
      rw [← hvi]
      exact getD_zero_or_one e.df.y hb01 i
    have := sum_eq_count_one (npIndexI e.df.y idxs) hbatch
    simp [random_hit_count, hc, sumAt, this]

/-- Claim C7: for every pool size `M` and sample size `k ≤ M`, the random
draw behind both a trial's `initial_list` and a baseline's `random_list`
yields exactly `k` pairwise-distinct indices, each in `[0, M)`. -/
theorem c7_sample_k_distinct_in_range (r : List Nat) (M k : Nat) (hk : k ≤ M) :
    ∃ l, np_random_choice r M k = some l ∧ l.length = k ∧ l.Nodup ∧ ∀ i ∈ l, i < M :=
  np_random_choice_spec r M k hk

/-- Claim C8: within a completed trial, with non-negative labels the
cumulative hit count is monotone in the cycle index — the label sum over
the selection set after cycle `i + 1` is at least the sum after cycle `i`. -/
theorem c8_cumulative_hits_monotone {σ : Type} (e : Env) (ops : LearnerOps σ)
    (r : List Nat) (X : List Fingerprint) (y : List Int) (oracle : Oracle)
    (Xt : List Fingerprint) (yt : List Int) (n : Nat) (res : TrialResult σ)
    (h : run_active_learning_full e ops r X y oracle Xt yt n = some res)
    (hy : ∀ v ∈ y, 0 ≤ v) (i : Nat) :
    sumAt y (res.initial_list ++ (res.batches.take i).flatten)
      ≤ sumAt y (res.initial_list ++ (res.batches.take (i + 1)).flatten) := by
  obtain ⟨extra, he⟩ := flatten_take_succ i res.batches
  rw [he]
  simp only [← List.append_assoc, sumAt_append]
  have := sumAt_nonneg y hy extra
  omega

/-- Claim C9: trials are deterministic in the random seed — with the same
random stream (and the same pool, learner behaviour and oracle), two runs
of the trial produce identical full outcomes (initial list, batch
sequence, pick list and hit count), and two baseline runs produce
identical hit counts. -/
theorem c9_fixed_seed_deterministic {σ : Type} (e : Env) (ops : LearnerOps σ)
    (r1 r2 : List Nat) (X : List Fingerprint) (y : List Int) (oracle : Oracle)
    (Xt : List Fingerprint) (yt : List Int) (n k : Nat) (hr : r1 = r2) :
    run_active_learning_full e ops r1 X y oracle Xt yt n =
      run_active_learning_full e ops r2 X y oracle Xt yt n
    ∧ run_active_learning e ops r1 X y oracle Xt yt n =
      run_active_learning e ops r2 X y oracle Xt yt n
    ∧ random_hit_count e r1 k = random_hit_count e r2 k := by
  subst hr
  exact ⟨rfl, rfl, rfl⟩

/-- Claim C10: the DataFrame handed to the `Oracle` constructor has no
influence on lookups — `get_values` reads the globally loaded label vector,
so any two Oracle instances agree on every index list. -/
theorem c10_oracle_ignores_stored_df (e : Env) (d1 d2 : DataFrame) (idxs : List Nat) :
    Oracle.get_values e ⟨d1⟩ idxs = Oracle.get_values e ⟨d2⟩ idxs
    ∧ Oracle.get_values e ⟨d1⟩ idxs = idxs.map (fun i => (y_pool e).getD i 0) :=
  ⟨rfl, rfl⟩

/-- Witness for `c2_hit_count_is_selection_sum` at the concrete `envB` trial. -/
theorem c2_hit_count_is_selection_sum_witness :
    run_active_learning_full envB constOps [0] (X_pool envB) (y_pool envB) oracleB [] [] 1 =
      some resB
    ∧ resB.hit_count = sumAt (y_pool envB) (resB.initial_list ++ resB.batches.flatten) :=
  ⟨by decide,
   (c2_hit_count_is_selection_sum envB constOps [0] (X_pool envB) (y_pool envB) oracleB
      [] [] 1 resB (by decide)).2.2.2.1⟩

/-- Witness for `c3_teach_uses_oracle_labels` at the concrete logged `envB`
trial. -/
theorem c3_teach_uses_oracle_labels_witness :
    run_active_learning_full envB (loggedOps constOps) [0] (X_pool envB) (y_pool envB)
      oracleB [[1]] [1] 1 = some resBlog
    ∧ resBlog.learner.2 = ([[1]], ([1] : List Int)) ::
        resBlog.batches.map
          (fun b => (npIndexF (X_pool envB) b, Oracle.get_values envB oracleB b)) :=
  ⟨by rfl,
   c3_teach_uses_oracle_labels envB constOps [0] (X_pool envB) (y_pool envB) oracleB
     [[1]] [1] 1 resBlog (by rfl)⟩

/-- Witness for `c4_hit_count_bounds` at the all-active pool `envD`. -/
theorem c4_hit_count_bounds_witness :
    run_active_learning_full envD constOps [0] (X_pool envD) (y_pool envD) oracleD [] [] 2 =
      some resD
    ∧ (∀ s : Unit, (constOps.query s (X_pool envD) envD.n_instances).length = envD.n_instances)
    ∧ (∀ s : Unit, ∀ i ∈ constOps.query s (X_pool envD) envD.n_instances, i < envD.M)
    ∧ ((∀ v ∈ y_pool envD, v = 1) →
        resD.hit_count = (envD.n_initial : Int) + (2 : Int) * (envD.n_instances : Int)) :=
  ⟨by decide, by intro s; cases s; decide, by intro s; cases s; decide,
   (c4_hit_count_bounds envD constOps [0] oracleD [] [] 2 resD (by decide)
      (by intro s; cases s; decide) (by intro s; cases s; decide)).2.2.2⟩

/-- Witness for `c5_insufficient_population_rejected` at `envC`, whose
`n_initial = 3` exceeds its pool size 2. -/
theorem c5_insufficient_population_rejected_witness :
    envC.M < envC.n_initial
    ∧ run_active_learning_full envC constOps [0] (X_pool envC) (y_pool envC) oracleA
        [] [] 4 = none
    ∧ run_active_learning envC constOps [0] (X_pool envC) (y_pool envC) oracleA [] [] 4 = none
    ∧ random_hit_count envC [0] 7 = none := by
  refine ⟨by decide, ?_, ?_, ?_⟩
  · exact ((c5_insufficient_population_rejected envC (by decide)).1 Unit constOps [0]
      (X_pool envC) (y_pool envC) oracleA [] [] 4).1
  · exact ((c5_insufficient_population_rejected envC (by decide)).1 Unit constOps [0]
      (X_pool envC) (y_pool envC) oracleA [] [] 4).2
  · exact (c5_insufficient_population_rejected envC (by decide)).2 [0] 7 (by decide)

/-- Witness for `c6_baseline_counts_positives` with `k = 2` over `envB`. -/
theorem c6_baseline_counts_positives_witness :
    2 ≤ envB.M
    ∧ ((∃ idxs, np_random_choice [1] envB.M 2 = some idxs
        ∧ idxs.length = 2
        ∧ random_hit_count envB [1] 2 = some (sumAt envB.df.y idxs)
        ∧ ((∀ v ∈ envB.df.y, v = 0 ∨ v = 1) →
            random_hit_count envB [1] 2 =
              some (((npIndexI envB.df.y idxs).count 1 : Nat) : Int)))
      ∧ np_random_choice [1] envB.M 0 = some []
      ∧ random_hit_count envB [1] 0 = some 0) :=
  ⟨by decide, c6_baseline_counts_positives envB [1] 2 (by decide)⟩

/-- Witness for `c7_sample_k_distinct_in_range` with `M = 4`, `k = 2`. -/
theorem c7_sample_k_distinct_in_range_witness :
    2 ≤ 4
    ∧ ∃ l, np_random_choice [5, 3] 4 2 = some l ∧ l.length = 2 ∧ l.Nodup ∧ ∀ i ∈ l, i < 4 :=
  ⟨by decide, c7_sample_k_distinct_in_range [5, 3] 4 2 (by decide)⟩

/-- Witness for `c8_cumulative_hits_monotone` at the concrete `envB` trial,
comparing the selection sets after cycles 0 and 1. -/
theorem c8_cumulative_hits_monotone_witness :
    run_active_learning_full envB constOps [0] (X_pool envB) (y_pool envB) oracleB [] [] 1 =
      some resB
    ∧ (∀ v ∈ y_pool envB, (0 : Int) ≤ v)
    ∧ sumAt (y_pool envB) (resB.initial_list ++ (resB.batches.take 0).flatten)
        ≤ sumAt (y_pool envB) (resB.initial_list ++ (resB.batches.take (0 + 1)).flatten) :=
  ⟨by decide, by decide,
   c8_cumulative_hits_monotone envB constOps [0] (X_pool envB) (y_pool envB) oracleB
     [] [] 1 resB (by decide) (by decide) 0⟩

/-- Witness for `c9_fixed_seed_deterministic` at a concrete repeated seed. -/
theorem c9_fixed_seed_deterministic_witness :
    run_active_learning_full envB constOps [3] (X_pool envB) (y_pool envB) oracleB [] [] 2 =
      run_active_learning_full envB constOps [3] (X_pool envB) (y_pool envB) oracleB [] [] 2
    ∧ run_active_learning envB constOps [3] (X_pool envB) (y_pool envB) oracleB [] [] 2 =
      run_active_learning envB constOps [3] (X_pool envB) (y_pool envB) oracleB [] [] 2
    ∧ random_hit_count envB [3] 2 = random_hit_count envB [3] 2 :=
  c9_fixed_seed_deterministic envB constOps [3] [3] (X_pool envB) (y_pool envB) oracleB
    [] [] 2 2 rfl

